import Mathlib

/-!
Verification development for the filtering-and-publishing core of a
Solana geyser-plugin Kafka relay (source files: src/filter.rs and
src/publisher.rs).

The Rust code is shallowly embedded: byte slices become List Nat, the
usize addition in the memcmp bounds check is modelled with wraparound
modulo 2 ^ 64 (release-profile semantics), and a Rust slice expression
that would panic (range start past range end, or end past the data
length) is modelled by returning none, so functions that can panic
return Option Bool.  HashSet of 32-byte keys becomes a list with
membership, which is observably equivalent for the contains and
is_empty operations used by the code.  The external bs58 crate and
Pubkey from_str are embedded as executable base-58 codecs below.
-/

namespace KafkaPlugin

/-- Modulus of the 64-bit machine word (usize / u64), 2 ^ 64. -/
def U64MOD : Nat := 18446744073709551616

/- ### base-58 codec (external collaborators: bs58 crate and Pubkey::from_str) -/

/-- The Bitcoin base-58 alphabet used by the bs58 crate. -/
def b58Digits : List Char :=
  String.toList ("123456789ABCDEFGHJKLMNPQRSTUVWXYZabcdefghijkmnopqrstuvwxyz")

/-- Index of a character in a digit list, if present. -/
def b58Index (c : Char) : List Char → Option Nat
  | [] => none
  | d :: rest => if c = d then some 0 else (b58Index c rest).map (· + 1)

/-- Value of a base-58 string read as a big-endian base-58 numeral;
none if any character is outside the alphabet. -/
def bs58Num (l : List Char) : Option Nat :=
  l.foldl
    (fun acc c =>
      match acc, b58Index c b58Digits with
      | some a, some v => some (a * 58 + v)
      | _, _ => none)
    (some 0)

/-- Number of leading one characters ('1' encodes a leading zero byte). -/
def countLeadingOnes : List Char → Nat
  | [] => 0
  | c :: rest => if c = '1' then countLeadingOnes rest + 1 else 0

/-- Minimal big-endian base-256 digits of a natural number (empty for 0).
Fuel-structured so the kernel can evaluate it. -/
def natToBytesBEAux : Nat → Nat → List Nat
  | 0, _ => []
  | fuel + 1, n => if n = 0 then [] else natToBytesBEAux fuel (n / 256) ++ [n % 256]

/-- Minimal big-endian base-256 digits of a natural number. -/
def natToBytesBE (n : Nat) : List Nat := natToBytesBEAux n n

/-- Embedding of bs58 decode: leading '1' characters become leading zero
bytes, the remaining value is written in base 256 big-endian; fails on a
character outside the alphabet. -/
def bs58Decode (s : String) : Option (List Nat) :=
  match bs58Num s.toList with
  | none => none
  | some n => some (List.replicate (countLeadingOnes s.toList) 0 ++ natToBytesBE n)

/-- Number of leading zero bytes. -/
def countLeadingZeroBytes : List Nat → Nat
  | [] => 0
  | b :: rest => if b = 0 then countLeadingZeroBytes rest + 1 else 0

/-- Minimal big-endian base-58 digit characters of a natural number. -/
def natToB58Aux : Nat → Nat → List Char
  | 0, _ => []
  | fuel + 1, n =>
    if n = 0 then [] else natToB58Aux fuel (n / 58) ++ [b58Digits.getD (n % 58) '1']

/-- Embedding of bs58 encode: one '1' per leading zero byte, then the
value of the bytes in base 58 big-endian. -/
def bs58Encode (bytes : List Nat) : String :=
  let n := bytes.foldl (fun acc b => acc * 256 + b) 0
  String.mk (List.replicate (countLeadingZeroBytes bytes) '1' ++ natToB58Aux n n)

/-- Embedding of solana Pubkey::from_str: reject strings longer than the
maximal base-58 length 44, base-58 decode, require exactly 32 bytes. -/
def pubkeyFromStr (s : String) : Option (List Nat) :=
  if s.length > 44 then none
  else
    match bs58Decode s with
    | some bytes => if bytes.length = 32 then some bytes else none
    | none => none

/- ### Configuration surface (filter part)

Modelled from the spec: the Config type itself lives in a repository
file that is not under src (config.rs); its filter-related fields and
their shapes are fixed by their uses in src/filter.rs (program_ignores,
program_filters, account_filters as lists of base-58 text addresses and
filters as a list of structured rules whose memcmp patterns are base-58
text). -/

/-- One configured memcmp clause: byte offset plus base-58 literal. -/
structure ConfigFiltersMemcmp where
  offset : Nat
  bytes : String
deriving DecidableEq, Repr

/-- One configured structured rule. -/
structure ConfigFiltersAccounts where
  program_id : String
  data_size : Option Nat
  lamports : Option Nat
  memcmp : Option (List ConfigFiltersMemcmp)
deriving DecidableEq, Repr

/-- Filter-related configuration fields. -/
structure Config where
  program_ignores : List String
  program_filters : List String
  account_filters : List String
  filters : List ConfigFiltersAccounts
deriving DecidableEq, Repr

/- ### Filter data model (src/filter.rs lines 22-39) -/

/-- FiltersMemcmp: decoded memcmp clause (filter.rs lines 29-32). -/
structure FiltersMemcmp where
  offset : Nat
  bytes : List Nat
deriving DecidableEq, Repr

/-- FiltersAccounts: decoded rule (filter.rs lines 22-27). -/
structure FiltersAccounts where
  program_id : Option (List Nat)
  data_size : Option Nat
  lamports : Option Nat
  memcmp : Option (List FiltersMemcmp)
deriving DecidableEq, Repr

/-- Filter: the three address sets and the rule list (filter.rs 34-39). -/
structure Filter where
  program_ignores : List (List Nat)
  program_filters : List (List Nat)
  account_filters : List (List Nat)
  filters : List FiltersAccounts
deriving DecidableEq, Repr

/- ### Filter construction (src/filter.rs lines 42-97) -/

/-- Address-set construction: each textual address is decoded with
Pubkey::from_str and decode failures are dropped (flat_map over ok). -/
def decodeAddrs (l : List String) : List (List Nat) :=
  l.filterMap pubkeyFromStr

/-- Decoding of a configured memcmp clause list (filter.rs 67-86): each
pattern is bs58-decoded; a decode failure panics (modelled as none). -/
def buildMemcmp : List ConfigFiltersMemcmp → Option (List FiltersMemcmp)
  | [] => some []
  | cmp :: rest =>
    match bs58Decode cmp.bytes with
    | some decoded => (buildMemcmp rest).map (fun v => ⟨cmp.offset, decoded⟩ :: v)
    | none => none

/-- Decoding of one configured rule (filter.rs 62-94): the program id is
decoded with Pubkey::from_str and a failure is kept as none (wildcard);
a memcmp pattern decode failure is fatal. -/
def buildFilter (cfa : ConfigFiltersAccounts) : Option FiltersAccounts :=
  match cfa.memcmp with
  | some memcmp =>
    (buildMemcmp memcmp).map
      (fun v => ⟨pubkeyFromStr cfa.program_id, cfa.data_size, cfa.lamports, some v⟩)
  | none => some ⟨pubkeyFromStr cfa.program_id, cfa.data_size, cfa.lamports, none⟩

/-- Decoding of the configured rule list (map over buildFilter). -/
def buildFilters : List ConfigFiltersAccounts → Option (List FiltersAccounts)
  | [] => some []
  | cfa :: rest =>
    match buildFilter cfa with
    | none => none
    | some f => (buildFilters rest).map (fun v => f :: v)

/-- Filter::new (filter.rs 42-97): build the three address sets, dropping
undecodable addresses, and the rule list; none models the panic on a
malformed memcmp pattern. -/
def Filter.new (config : Config) : Option Filter :=
  match buildFilters config.filters with
  | none => none
  | some fs =>
    some
      { program_ignores := decodeAddrs config.program_ignores
        program_filters := decodeAddrs config.program_filters
        account_filters := decodeAddrs config.account_filters
        filters := fs }

/- ### Filter queries (src/filter.rs lines 99-191) -/

/-- Filter::wants_program (filter.rs 99-106): fail-open on a width other
than 32, then not-ignored and (allow set empty or member). -/
def Filter.wants_program (f : Filter) (program : List Nat) : Bool :=
  if program.length ≠ 32 then true
  else
    decide (program ∉ f.program_ignores) &&
      (f.program_filters.isEmpty || decide (program ∈ f.program_filters))

/-- One memcmp clause check (filter.rs 153-167), release-profile
semantics: the usize sum offset + bytes.len() wraps modulo 2 ^ 64; the
slice data[offset .. sum] panics (none) when offset exceeds the wrapped
sum, which can only happen after wraparound. -/
def clauseEval (data : List Nat) (c : FiltersMemcmp) : Option Bool :=
  if c.bytes.length = 0 then some false
  else
    let endIdx := (c.offset + c.bytes.length) % U64MOD
    if endIdx > data.length then some false
    else
      if c.offset ≤ endIdx then
        some (decide (c.bytes = (data.drop c.offset).take (endIdx - c.offset)))
      else none

/-- The memcmp loop of one rule (filter.rs 151-168): clauses are checked
in order; the first failing clause breaks with a non-match. -/
def memcmpEval (data : List Nat) : List FiltersMemcmp → Option Bool
  | [] => some true
  | c :: rest =>
    match clauseEval data c with
    | none => none
    | some false => some false
    | some true => memcmpEval data rest

/-- The program-id skip test of the rule loop (filter.rs 123-132): a
present program id that differs from the input skips the rule. -/
def progSkip (pid : Option (List Nat)) (program : List Nat) : Bool :=
  match pid with
  | some id => decide (program ≠ id)
  | none => false

/-- The lamports skip test of the rule loop (filter.rs 134-138). -/
def lamportsSkip (lam : Option Nat) (lamports : Nat) : Bool :=
  match lam with
  | some lf => decide (lf ≠ lamports)
  | none => false

/-- The data-size skip test of the rule loop (filter.rs 140-149). -/
def sizeSkip (ds : Option Nat) (data : List Nat) : Bool :=
  match ds with
  | some size => decide (data.length ≠ size)
  | none => false

/-- The memcmp part of one rule (filter.rs 151-173): an absent clause
list imposes nothing. -/
def ruleMemcmpEval (mc : Option (List FiltersMemcmp)) (data : List Nat) : Option Bool :=
  match mc with
  | some l => memcmpEval data l
  | none => some true

/-- The body of the rule loop of wants_filter (filter.rs 118-175): a rule
is skipped (false) when its program id, lamports or data size predicate
mismatches, otherwise its memcmp clauses decide. -/
def ruleEval (flt : FiltersAccounts) (program data : List Nat) (lamports : Nat) :
    Option Bool :=
  if progSkip flt.program_id program then some false
  else
    if lamportsSkip flt.lamports lamports then some false
    else
      if sizeSkip flt.data_size data then some false
      else ruleMemcmpEval flt.memcmp data

/-- The rule loop of wants_filter: first rule that matches returns true,
a panic in a rule propagates, no matching rule gives false. -/
def wantsFilterLoop (rules : List FiltersAccounts) (program data : List Nat)
    (lamports : Nat) : Option Bool :=
  match rules with
  | [] => some false
  | r :: rest =>
    match ruleEval r program data lamports with
    | none => none
    | some true => some true
    | some false => wantsFilterLoop rest program data lamports

/-- Filter::wants_filter (filter.rs 108-182): fail-open on a width other
than 32, immediate reject when the program is ignored, then the rule
loop; none models a panic inside a rule. -/
def Filter.wants_filter (f : Filter) (program data : List Nat) (lamports : Nat) :
    Option Bool :=
  if program.length ≠ 32 then some true
  else
    if program ∈ f.program_ignores then some false
    else wantsFilterLoop f.filters program data lamports

/-- Filter::wants_account (filter.rs 184-190): fail-open on a width other
than 32, then strict membership in the account allow set. -/
def Filter.wants_account (f : Filter) (account : List Nat) : Bool :=
  if account.length ≠ 32 then true
  else decide (account ∈ f.account_filters)

/- ### Publisher data model (src/publisher.rs lines 31-41)

The producer handle and the shutdown timeout take no part in the
claims settled here; the pure routing state is kept. -/

/-- Publisher configuration state (publisher.rs 31-41). -/
structure Publisher where
  update_account_topic : String
  slot_status_topic : String
  transaction_topic : String
  publish_separate_program : Bool
  wrap_messages : Bool
deriving DecidableEq, Repr

/-- Modelled from the spec: UpdateAccountEvent is a prost-generated type
whose definition is not under src; the spec fixes its shape as owner
address (32 bytes), account address (32 bytes), raw data bytes and a
lamports balance.  Only pubkey and owner are read by the publisher. -/
structure UpdateAccountEvent where
  pubkey : List Nat
  owner : List Nat
  lamports : Nat
  data : List Nat
deriving DecidableEq, Repr

/-- Modelled from the spec: SlotStatusEvent carries a 64-bit slot number
and a status; only slot is read by the publisher. -/
structure SlotStatusEvent where
  slot : Nat
  status : Nat
deriving DecidableEq, Repr

/-- Modelled from the spec: TransactionEvent carries the signature bytes
and the transaction body; only signature is read by the publisher. -/
structure TransactionEvent where
  signature : List Nat
deriving DecidableEq, Repr

/-- The key and destination topic of one record handed to the external
producer.  The protobuf payload encoding is an external collaborator
(prost) and is not modelled. -/
structure ProducedRecord where
  topic : String
  key : List Nat
deriving DecidableEq, Repr

/-- Observable outcome of one update call: the record handed to the
producer, the label of the single per-kind counter increment, and the
returned result (the error is the context string the code wraps around
the producer error). -/
structure SendOutcome where
  record : ProducedRecord
  counter : String
  result : Except String Unit
deriving Repr

/-- u64 to_le_bytes: the 8 little-endian bytes of a 64-bit value. -/
def u64ToLeBytes (n : Nat) : List Nat :=
  (List.range 8).map (fun i => n / 256 ^ i % 256)

/-- Publisher::copy_and_prepend (publisher.rs 164-169): one tag byte
followed by the data bytes. -/
def copy_and_prepend (data : List Nat) (tag : Nat) : List Nat :=
  tag :: data

/-- Publisher::update_account, the complete variant (publisher.rs 72-93):
key is the account address, tag 65 prepended in envelope mode; the
destination topic is the configured account topic (this variant never
reads publish_separate_program); one counter increment labelled by the
send outcome; on failure the error is wrapped with the topic name.  The
producer send outcome is passed in as sendOk. -/
def Publisher.update_account (p : Publisher) (ev : UpdateAccountEvent)
    (sendOk : Bool) : SendOutcome :=
  let key := if p.wrap_messages then copy_and_prepend ev.pubkey 65 else ev.pubkey
  { record := { topic := p.update_account_topic, key := key }
    counter := if sendOk then "success" else "failed"
    result :=
      if sendOk then Except.ok ()
      else Except.error ("Failed to send account to topic: " ++ p.update_account_topic) }

/-- Topic resolution of the first, truncated update_account variant
(publisher.rs 55-63): the account topic, suffixed with a dash and the
base-58 owner address when per-program routing is enabled. -/
def updateAccountTopicV1 (p : Publisher) (owner : List Nat) : String :=
  if p.publish_separate_program then
    p.update_account_topic ++ "-" ++ bs58Encode owner
  else p.update_account_topic

/-- Publisher::update_slot_status (publisher.rs 95-117): key is the slot
number in 8-byte little-endian, tag 83 prepended in envelope mode;
fixed slot topic; same counter and error contract. -/
def Publisher.update_slot_status (p : Publisher) (ev : SlotStatusEvent)
    (sendOk : Bool) : SendOutcome :=
  let key :=
    if p.wrap_messages then copy_and_prepend (u64ToLeBytes ev.slot) 83
    else u64ToLeBytes ev.slot
  { record := { topic := p.slot_status_topic, key := key }
    counter := if sendOk then "success" else "failed"
    result :=
      if sendOk then Except.ok ()
      else Except.error ("Failed to send slot status to topic: " ++ p.slot_status_topic) }

/-- Publisher::update_transaction (publisher.rs 119-143): key is the
signature, tag 84 prepended in envelope mode; fixed transaction topic;
same counter and error contract. -/
def Publisher.update_transaction (p : Publisher) (ev : TransactionEvent)
    (sendOk : Bool) : SendOutcome :=
  let key :=
    if p.wrap_messages then copy_and_prepend ev.signature 84 else ev.signature
  { record := { topic := p.transaction_topic, key := key }
    counter := if sendOk then "success" else "failed"
    result :=
      if sendOk then Except.ok ()
      else Except.error ("Failed to send transaction to topic: " ++ p.transaction_topic) }

/- ### Spec-side definitions (claim-side, for refinement statements) -/

/-- Spec-side memcmp clause match, following the spec words: the clause
fails when the pattern is empty, or offset + pattern length exceeds the
data length (exact, unbounded arithmetic), or the byte range at the
offset is not exactly the pattern. -/
def specClauseMatches (data : List Nat) (c : FiltersMemcmp) : Bool :=
  decide (c.bytes ≠ []) &&
    decide (c.offset + c.bytes.length ≤ data.length) &&
    decide (c.bytes = (data.drop c.offset).take c.bytes.length)

/-- Spec-side: the optional program id, if present, equals the input
program. -/
def specProgOk (pid : Option (List Nat)) (program : List Nat) : Bool :=
  match pid with
  | some id => decide (id = program)
  | none => true

/-- Spec-side: the optional lamports value, if present, equals the input
lamports. -/
def specLamportsOk (lam : Option Nat) (lamports : Nat) : Bool :=
  match lam with
  | some lf => decide (lf = lamports)
  | none => true

/-- Spec-side: the optional data size, if present, equals the data
length. -/
def specSizeOk (ds : Option Nat) (data : List Nat) : Bool :=
  match ds with
  | some s => decide (data.length = s)
  | none => true

/-- Spec-side: every memcmp clause of a present clause list matches. -/
def specMemcmpOk (mc : Option (List FiltersMemcmp)) (data : List Nat) : Bool :=
  match mc with
  | some l => l.all (specClauseMatches data)
  | none => true

/-- Spec-side full-rule satisfaction, following the claim words: the
optional program id, lamports and data size, when present, equal the
input, and every memcmp clause of a present clause list matches. -/
def specRuleSatisfied (flt : FiltersAccounts) (program data : List Nat)
    (lamports : Nat) : Bool :=
  specProgOk flt.program_id program &&
    specLamportsOk flt.lamports lamports &&
    specSizeOk flt.data_size data &&
    specMemcmpOk flt.memcmp data

/-- No-wraparound side condition for one clause: the usize sum
offset + pattern length stays below 2 ^ 64. -/
def clauseNoOverflow (c : FiltersMemcmp) : Bool :=
  decide (c.offset + c.bytes.length < U64MOD)

/-- No-wraparound side condition for the clauses of one rule. -/
def ruleNoOverflow (flt : FiltersAccounts) : Bool :=
  match flt.memcmp with
  | some l => l.all clauseNoOverflow
  | none => true

/-- No-wraparound side condition for every rule of a filter. -/
def filterNoOverflow (f : Filter) : Bool :=
  f.filters.all ruleNoOverflow

/-- Every configured memcmp pattern of every rule decodes. -/
def allPatternsDecode (config : Config) : Prop :=
  ∀ cfa ∈ config.filters, ∀ mc ∈ cfa.memcmp.getD [], (bs58Decode mc.bytes).isSome = true

instance (config : Config) : Decidable (allPatternsDecode config) := by
  unfold allPatternsDecode
  infer_instance

/- ### Concrete inputs for witnesses and counterexamples -/

/-- A filter whose first rule carries a memcmp clause with a wrapping
offset and whose second rule matches everything. -/
def c1xFilter : Filter :=
  ⟨[], [], [],
   [⟨none, none, none, some [⟨U64MOD - 1, [0, 0]⟩]⟩,
    ⟨none, none, none, none⟩]⟩

/-- A 32-byte program address of zeros. -/
def c1xProg : List Nat := List.replicate 32 0

/-- Five data bytes. -/
def c1xData : List Nat := [0, 0, 0, 0, 0]

/-- A filter with one fully constrained rule. -/
def c1wFilter : Filter :=
  ⟨[], [], [],
   [⟨some (List.replicate 32 1), some 2, none, some [⟨0, [7]⟩]⟩]⟩

/-- The 32-byte program address of ones. -/
def c1wProg : List Nat := List.replicate 32 1

/-- A publisher with per-program routing enabled. -/
def c2Pub : Publisher := ⟨"acct", "slot", "tx", true, false⟩

/-- An account update whose owner is 32 zero bytes. -/
def c2Ev : UpdateAccountEvent := ⟨List.replicate 32 2, List.replicate 32 0, 0, []⟩

/-- An account update whose owner is 32 one bytes. -/
def c2EvB : UpdateAccountEvent := ⟨List.replicate 32 3, List.replicate 32 1, 0, []⟩

/-- A filter that ignores the all-3 address and has an empty allow set. -/
def c3wFilter : Filter := ⟨[List.replicate 32 3], [], [], []⟩

/-- The ignored 32-byte address. -/
def c3wProgIn : List Nat := List.replicate 32 3

/-- A 32-byte address that is not ignored. -/
def c3wProgOut : List Nat := List.replicate 32 4

/-- A filter with nonempty sets, for the fail-open witness. -/
def c4wFilter : Filter := ⟨[[5]], [[6]], [[7]], []⟩

/-- A memcmp clause whose usize offset plus length wraps modulo 2 ^ 64. -/
def c5xClause : FiltersMemcmp := ⟨U64MOD - 1, [0, 0]⟩

/-- A filter carrying only the wrapping clause. -/
def c5xFilter : Filter := ⟨[], [], [], [⟨none, none, none, some [c5xClause]⟩]⟩

/-- A 32-byte program address of zeros. -/
def c5xProg : List Nat := List.replicate 32 0

/-- Five data bytes. -/
def c5xData : List Nat := [0, 0, 0, 0, 0]

/-- An out-of-bounds clause without wraparound. -/
def c5wClause : FiltersMemcmp := ⟨5, [9]⟩

/-- A rule carrying only the out-of-bounds clause. -/
def c5wRule : FiltersAccounts := ⟨none, none, none, some [c5wClause]⟩

/-- A rule whose program id, data size and lamports all match the witness
input while its memcmp clause has an empty pattern. -/
def c6wRule : FiltersAccounts :=
  ⟨some (List.replicate 32 9), some 2, some 5, some [⟨0, []⟩]⟩

/-- The matching 32-byte program address for the empty-pattern witness. -/
def c6wProg : List Nat := List.replicate 32 9

/-- A configuration whose textual addresses are partly malformed and
whose memcmp patterns all decode. -/
def c9GoodConfig : Config :=
  { program_ignores := ["0", "1111111111111111111111111111111z"]
    program_filters := ["11111111111111111111111111111111"]
    account_filters := []
    filters := [⟨"11111111111111111111111111111111", some 2, some 7, some [⟨1, "2"⟩]⟩] }

/-- A configuration with a malformed memcmp pattern. -/
def c9BadConfig : Config :=
  { program_ignores := []
    program_filters := []
    account_filters := []
    filters := [⟨"x", none, none, some [⟨0, "0"⟩]⟩] }

/-- A configured rule whose textual program id fails base-58 decoding. -/
def c10Cfa : ConfigFiltersAccounts := ⟨"0", some 5, none, none⟩

/-- The decoded rule the unparsable program id produces. -/
def c10Rule : FiltersAccounts := ⟨none, some 5, none, none⟩

/- ### Shared lemmas: the rule loop refines the spec-side predicates
whenever no memcmp clause wraps the machine word. -/

theorem clauseEval_eq_spec (data : List Nat) (c : FiltersMemcmp)
    (h : clauseNoOverflow c = true) :
    clauseEval data c = some (specClauseMatches data c) := by
  have hlt : c.offset + c.bytes.length < U64MOD := by
    simpa [clauseNoOverflow] using h
  unfold clauseEval specClauseMatches
  by_cases hb : c.bytes.length = 0
  · have hnil : c.bytes = [] := List.length_eq_zero.mp hb
    simp [hb, hnil]
  · have hne : c.bytes ≠ [] := fun hh => hb (by simp [hh])
    simp only [hb, if_false, Nat.mod_eq_of_lt hlt]
    by_cases hgt : c.offset + c.bytes.length > data.length
    · have hle : ¬ (c.offset + c.bytes.length ≤ data.length) := by omega
      simp [hgt, hle, hne]
    · have hle : c.offset + c.bytes.length ≤ data.length := by omega
      have hoff : c.offset ≤ c.offset + c.bytes.length := Nat.le_add_right _ _
      simp [hgt, hle, hne, hoff, Nat.add_sub_cancel_left]

theorem memcmpEval_eq_spec (data : List Nat) (l : List FiltersMemcmp)
    (h : l.all clauseNoOverflow = true) :
    memcmpEval data l = some (l.all (specClauseMatches data)) := by
  induction l with
  | nil => rfl
  | cons c rest ih =>
    simp only [List.all_cons, Bool.and_eq_true] at h
    simp only [memcmpEval, clauseEval_eq_spec data c h.1]
    cases hm : specClauseMatches data c
    · simp [hm]
    · simp [hm, ih h.2]

theorem progSkip_eq (pid : Option (List Nat)) (program : List Nat) :
    progSkip pid program = !(specProgOk pid program) := by
  cases pid with
  | none => rfl
  | some id => by_cases hid : program = id <;> simp [progSkip, specProgOk, hid, eq_comm]

theorem lamportsSkip_eq (lam : Option Nat) (lamports : Nat) :
    lamportsSkip lam lamports = !(specLamportsOk lam lamports) := by
  cases lam with
  | none => rfl
  | some lf => simp [lamportsSkip, specLamportsOk, decide_not]

theorem sizeSkip_eq (ds : Option Nat) (data : List Nat) :
    sizeSkip ds data = !(specSizeOk ds data) := by
  cases ds with
  | none => rfl
  | some s => simp [sizeSkip, specSizeOk, decide_not]

theorem ruleEval_eq_spec (flt : FiltersAccounts) (program data : List Nat)
    (lamports : Nat) (h : ruleNoOverflow flt = true) :
    ruleEval flt program data lamports = some (specRuleSatisfied flt program data lamports) := by
  have hm : ruleMemcmpEval flt.memcmp data = some (specMemcmpOk flt.memcmp data) := by
    rcases hmc : flt.memcmp with _ | l
    · rfl
    · simp only [ruleMemcmpEval, specMemcmpOk]
      exact memcmpEval_eq_spec data l (by simpa [ruleNoOverflow, hmc] using h)
  simp only [ruleEval, specRuleSatisfied]
  rw [hm, progSkip_eq, lamportsSkip_eq, sizeSkip_eq]
  cases specProgOk flt.program_id program <;>
    cases specLamportsOk flt.lamports lamports <;>
      cases specSizeOk flt.data_size data <;> simp

theorem wantsFilterLoop_eq_spec (rules : List FiltersAccounts) (program data : List Nat)
    (lamports : Nat) (h : rules.all ruleNoOverflow = true) :
    wantsFilterLoop rules program data lamports =
      some (rules.any fun r => specRuleSatisfied r program data lamports) := by
  induction rules with
  | nil => rfl
  | cons r rest ih =>
    simp only [List.all_cons, Bool.and_eq_true] at h
    simp only [wantsFilterLoop, ruleEval_eq_spec r program data lamports h.1]
    cases hm : specRuleSatisfied r program data lamports
    · simp [hm, ih h.2]
    · simp [hm]

/- ### Claim C1 -/

/-- Claim C1 fails as stated: in the filter c1xFilter the second rule is
fully satisfied by the input (32-byte program, not ignored), so the
claim requires wants_filter to return true, but the first rule's memcmp
clause has offset 2 ^ 64 - 1, the usize sum wraps to 1 ≤ data length and
the slice expression panics, so the call returns neither true nor
false. -/
theorem C1_counterexample :
    c1xProg.length = 32 ∧
    c1xProg ∉ c1xFilter.program_ignores ∧
    (c1xFilter.filters.any fun r => specRuleSatisfied r c1xProg c1xData 0) = true ∧
    c1xFilter.wants_filter c1xProg c1xData 0 ≠ some true ∧
    c1xFilter.wants_filter c1xProg c1xData 0 ≠ some false := by decide

/-- Claim C1 (amended): for every 32-byte program address not in the
ignore set, every data and lamports, provided no memcmp clause of any
configured rule has offset plus pattern length reaching 2 ^ 64,
wants_filter returns true exactly when some configured rule is fully
satisfied (optional program id, lamports and data size, when present,
equal the input, and every memcmp clause of a present list matches),
rules being evaluated in configured order with the first satisfied rule
deciding; with no satisfied rule (or no rules) it returns false. -/
theorem C1_rule_semantics (f : Filter) (program data : List Nat) (lamports : Nat)
    (hlen : program.length = 32) (hig : program ∉ f.program_ignores)
    (hov : filterNoOverflow f = true) :
    f.wants_filter program data lamports =
      some (f.filters.any fun r => specRuleSatisfied r program data lamports) := by
  unfold Filter.wants_filter
  rw [if_neg (by simp [hlen]), if_neg hig]
  exact wantsFilterLoop_eq_spec f.filters program data lamports
    (by simpa [filterNoOverflow] using hov)

/-- Witness for C1: a concrete filter whose single rule is satisfied by
the input, where the amended theorem applies and yields true. -/
theorem C1_witness :
    c1wFilter.wants_filter c1wProg [7, 8] 5 =
      some (c1wFilter.filters.any fun r => specRuleSatisfied r c1wProg [7, 8] 5) ∧
    c1wFilter.wants_filter c1wProg [7, 8] 5 = some true := by
  have h := C1_rule_semantics c1wFilter c1wProg [7, 8] 5 (by decide) (by decide) (by decide)
  exact ⟨h, by rw [h]; decide⟩

/- ### Claim C3 -/

/-- Claim C3: for a 32-byte address, wants_program returns false when the
address is in the ignore set regardless of the allow set, and otherwise
returns true exactly when the allow set is empty or contains the
address. -/
theorem C3_wants_program (f : Filter) (program : List Nat)
    (hlen : program.length = 32) :
    (program ∈ f.program_ignores → f.wants_program program = false) ∧
    (program ∉ f.program_ignores →
      (f.wants_program program = true ↔
        (f.program_filters.isEmpty = true ∨ program ∈ f.program_filters))) := by
  unfold Filter.wants_program
  rw [if_neg (by simp [hlen])]
  constructor
  · intro hin
    simp [hin]
  · intro hout
    simp [hout]

/-- Witness for C3: the ignored address is rejected, a fresh address is
accepted because the allow set is empty. -/
theorem C3_witness :
    c3wFilter.wants_program c3wProgIn = false ∧
    c3wFilter.wants_program c3wProgOut = true :=
  ⟨(C3_wants_program c3wFilter c3wProgIn (by decide)).1 (by decide),
   ((C3_wants_program c3wFilter c3wProgOut (by decide)).2 (by decide)).mpr
     (Or.inl (by decide))⟩

/- ### Claim C4 -/

/-- Claim C4: for every input whose length is not 32, all three queries
return true for every filter and all other arguments. -/
theorem C4_fail_open (f : Filter) (bytes : List Nat) (h : bytes.length ≠ 32) :
    f.wants_program bytes = true ∧
    (∀ data lamports, f.wants_filter bytes data lamports = some true) ∧
    f.wants_account bytes = true := by
  refine ⟨?_, fun data lamports => ?_, ?_⟩ <;>
    simp [Filter.wants_program, Filter.wants_filter, Filter.wants_account, h]

/-- Witness for C4: the empty byte string passes all three queries of a
filter with nonempty sets. -/
theorem C4_witness :
    c4wFilter.wants_program [] = true ∧
    c4wFilter.wants_filter [] [] 0 = some true ∧
    c4wFilter.wants_account [] = true :=
  ⟨(C4_fail_open c4wFilter [] (by decide)).1,
   (C4_fail_open c4wFilter [] (by decide)).2.1 [] 0,
   (C4_fail_open c4wFilter [] (by decide)).2.2⟩

/- ### Claim C5 -/

/-- Claim C5 fails as stated: for the clause with offset 2 ^ 64 - 1 and a
2-byte pattern, offset plus pattern length exceeds the data length
(5), so the claim requires the clause to fail without failing the call;
but the usize sum wraps to 1, the slice range start exceeds its end and
the call panics (none) instead of returning false. -/
theorem C5_counterexample :
    c5xData.length < c5xClause.offset + c5xClause.bytes.length ∧
    clauseEval c5xData c5xClause = none ∧
    c5xFilter.wants_filter c5xProg c5xData 0 = none := by decide

/-- Claim C5 (amended): for every memcmp clause whose offset plus pattern
length stays below 2 ^ 64, if that sum exceeds the data length the
clause is evaluated to a non-match without any out-of-bounds read and
without failing, and a rule whose clause list contains such a clause
(all clauses below 2 ^ 64) is skipped; a clause whose offset plus
pattern length reaches 2 ^ 64 can instead make the call panic. -/
theorem C5_oob_clause (data : List Nat) (c : FiltersMemcmp)
    (hov : clauseNoOverflow c = true)
    (hoob : data.length < c.offset + c.bytes.length) :
    clauseEval data c = some false ∧
    ∀ (flt : FiltersAccounts) (l : List FiltersMemcmp),
      flt.memcmp = some l → c ∈ l → l.all clauseNoOverflow = true →
      ∀ program lamports, ruleEval flt program data lamports = some false := by
  have hcf : specClauseMatches data c = false := by
    have : ¬ (c.offset + c.bytes.length ≤ data.length) := by omega
    simp [specClauseMatches, this]
  constructor
  · rw [clauseEval_eq_spec data c hov, hcf]
  · intro flt l hmc hcl hall program lamports
    have hallf : l.all (specClauseMatches data) = false := by
      cases hall2 : l.all (specClauseMatches data) with
      | false => rfl
      | true =>
        have := List.all_eq_true.mp hall2 c hcl
        rw [hcf] at this
        exact absurd this (by simp)
    have hrov : ruleNoOverflow flt = true := by
      simp [ruleNoOverflow, hmc, hall]
    rw [ruleEval_eq_spec flt program data lamports hrov]
    simp [specRuleSatisfied, specMemcmpOk, hmc, hallf]

/-- Witness for C5: a clause at offset 5 with a 1-byte pattern against
3 data bytes fails cleanly, and the rule carrying it is skipped. -/
theorem C5_witness :
    clauseEval [1, 2, 3] c5wClause = some false ∧
    ruleEval c5wRule (List.replicate 32 0) [1, 2, 3] 0 = some false :=
  ⟨(C5_oob_clause [1, 2, 3] c5wClause (by decide) (by decide)).1,
   (C5_oob_clause [1, 2, 3] c5wClause (by decide) (by decide)).2 c5wRule [c5wClause]
     rfl (by decide) (by decide) (List.replicate 32 0) 0⟩

/- ### Claim C6 -/

/-- The memcmp loop never reports a match when some clause's pattern is
empty: evaluation either fails an earlier clause, panics there, or
reaches the empty-pattern clause and breaks with a non-match. -/
theorem memcmpEval_empty_ne_true (data : List Nat) (l : List FiltersMemcmp)
    (c : FiltersMemcmp) (hcl : c ∈ l) (hb : c.bytes = []) :
    memcmpEval data l ≠ some true := by
  induction l with
  | nil => cases hcl
  | cons hd rest ih =>
    rcases List.mem_cons.mp hcl with hEq | hMem
    · subst hEq
      simp [memcmpEval, clauseEval, hb]
    · simp only [memcmpEval]
      rcases hce : clauseEval data hd with _ | b
      · simp
      · cases b
        · simp
        · exact ih hMem

/-- Claim C6: a rule containing a memcmp clause whose pattern is empty
never makes wants_filter match by way of that rule: the rule's
evaluation never yields a match, whatever the program address, data and
lamports, even when the other predicates of the rule are satisfied. -/
theorem C6_empty_pattern (flt : FiltersAccounts) (l : List FiltersMemcmp)
    (c : FiltersMemcmp) (hmc : flt.memcmp = some l) (hcl : c ∈ l) (hb : c.bytes = [])
    (program data : List Nat) (lamports : Nat) :
    ruleEval flt program data lamports ≠ some true := by
  unfold ruleEval
  split_ifs
  · simp
  · simp
  · simp
  · simpa [ruleMemcmpEval, hmc] using memcmpEval_empty_ne_true data l c hcl hb

/-- Witness for C6: a rule whose program id, data size and lamports all
match the input still never matches through its empty-pattern clause. -/
theorem C6_witness :
    specProgOk c6wRule.program_id c6wProg = true ∧
    specSizeOk c6wRule.data_size [1, 2] = true ∧
    specLamportsOk c6wRule.lamports 5 = true ∧
    ruleEval c6wRule c6wProg [1, 2] 5 ≠ some true :=
  ⟨by decide, by decide, by decide,
   C6_empty_pattern c6wRule [⟨0, []⟩] ⟨0, []⟩ rfl (by decide) rfl c6wProg [1, 2] 5⟩

/- ### Claim C7 -/

/-- Claim C7: key derivation is deterministic per event kind; with
envelope mode on the key is one tag byte (65 for Account, 83 for Slot,
84 for Transaction, three distinct constants, Account being 0x41)
followed by the unchanged identifying bytes (account address, slot as
8-byte little-endian, signature), hence 1 + payload length bytes long;
with envelope mode off the key is exactly the identifying bytes. -/
theorem C7_key_derivation (p : Publisher) (ev : UpdateAccountEvent)
    (sv : SlotStatusEvent) (tv : TransactionEvent) (sendOk : Bool) :
    (p.update_account ev sendOk).record.key =
      (if p.wrap_messages then 65 :: ev.pubkey else ev.pubkey) ∧
    (p.update_slot_status sv sendOk).record.key =
      (if p.wrap_messages then 83 :: u64ToLeBytes sv.slot else u64ToLeBytes sv.slot) ∧
    (p.update_transaction tv sendOk).record.key =
      (if p.wrap_messages then 84 :: tv.signature else tv.signature) ∧
    (u64ToLeBytes sv.slot).length = 8 ∧
    (p.update_account ev sendOk).record.key.length =
      (if p.wrap_messages then 1 + ev.pubkey.length else ev.pubkey.length) ∧
    (p.update_slot_status sv sendOk).record.key.length =
      (if p.wrap_messages then 1 + 8 else 8) ∧
    (p.update_transaction tv sendOk).record.key.length =
      (if p.wrap_messages then 1 + tv.signature.length else tv.signature.length) ∧
    (65 : Nat) = 0x41 ∧ (65 : Nat) ≠ 83 ∧ (65 : Nat) ≠ 84 ∧ (83 : Nat) ≠ 84 := by
  have hlen : (u64ToLeBytes sv.slot).length = 8 := by simp [u64ToLeBytes]
  cases hw : p.wrap_messages <;>
    simp [Publisher.update_account, Publisher.update_slot_status,
      Publisher.update_transaction, copy_and_prepend, hw, hlen, Nat.add_comm]

/- ### Claim C8 -/

/-- Claim C8: each update operation returns Ok exactly when the producer
send succeeds and otherwise an error carrying the destination topic's
name; each call performs exactly one per-kind counter increment (the
single counter field of the outcome), labelled success on success and
failed on failure. -/
theorem C8_delivery_outcome (p : Publisher) (ev : UpdateAccountEvent)
    (sv : SlotStatusEvent) (tv : TransactionEvent) (sendOk : Bool) :
    ((p.update_account ev sendOk).result.isOk = sendOk ∧
     (p.update_account ev sendOk).result =
       (if sendOk then Except.ok ()
        else Except.error ("Failed to send account to topic: " ++ p.update_account_topic)) ∧
     (p.update_account ev sendOk).counter = (if sendOk then "success" else "failed") ∧
     (p.update_account ev sendOk).record.topic = p.update_account_topic) ∧
    ((p.update_slot_status sv sendOk).result.isOk = sendOk ∧
     (p.update_slot_status sv sendOk).result =
       (if sendOk then Except.ok ()
        else Except.error ("Failed to send slot status to topic: " ++ p.slot_status_topic)) ∧
     (p.update_slot_status sv sendOk).counter = (if sendOk then "success" else "failed") ∧
     (p.update_slot_status sv sendOk).record.topic = p.slot_status_topic) ∧
    ((p.update_transaction tv sendOk).result.isOk = sendOk ∧
     (p.update_transaction tv sendOk).result =
       (if sendOk then Except.ok ()
        else Except.error ("Failed to send transaction to topic: " ++ p.transaction_topic)) ∧
     (p.update_transaction tv sendOk).counter = (if sendOk then "success" else "failed") ∧
     (p.update_transaction tv sendOk).record.topic = p.transaction_topic) := by
  cases sendOk <;>
    simp [Publisher.update_account, Publisher.update_slot_status,
      Publisher.update_transaction, Except.isOk, Except.toBool]

/- ### Claim C2 -/

/-- Claim C2 names a code bug: with per-program routing enabled, the
complete update_account variant (publisher.rs 72-93) sends to the bare
configured topic and never reads publish_separate_program, so two
events with different owners go to the same topic; the truncated first
variant (publisher.rs 55-63) computes exactly the claimed suffixed
topic, base topic, dash, base-58 owner. -/
theorem C2_routing_dropped :
    c2Pub.publish_separate_program = true ∧
    (c2Pub.update_account c2Ev true).record.topic = c2Pub.update_account_topic ∧
    (c2Pub.update_account c2Ev true).record.topic ≠
      c2Pub.update_account_topic ++ "-" ++ bs58Encode c2Ev.owner ∧
    updateAccountTopicV1 c2Pub c2Ev.owner =
      c2Pub.update_account_topic ++ "-" ++ bs58Encode c2Ev.owner ∧
    c2Ev.owner ≠ c2EvB.owner ∧
    (c2Pub.update_account c2Ev true).record.topic =
      (c2Pub.update_account c2EvB true).record.topic ∧
    updateAccountTopicV1 c2Pub c2Ev.owner ≠ updateAccountTopicV1 c2Pub c2EvB.owner := by
  refine ⟨rfl, rfl, by decide, by decide, by decide, rfl, by decide⟩

/- ### Claim C9 -/

/-- Mapping over an option preserves definedness. -/
theorem isSome_map {α β : Type} (f : α → β) (o : Option α) :
    (o.map f).isSome = o.isSome := by
  cases o <;> rfl

/-- A memcmp clause list builds whenever every pattern decodes. -/
theorem buildMemcmp_isSome (l : List ConfigFiltersMemcmp)
    (h : ∀ mc ∈ l, (bs58Decode mc.bytes).isSome = true) :
    (buildMemcmp l).isSome = true := by
  induction l with
  | nil => rfl
  | cons mc rest ih =>
    have h1 := h mc (List.mem_cons_self mc rest)
    rcases hd : bs58Decode mc.bytes with _ | bytes
    · rw [hd] at h1
      simp at h1
    · simp only [buildMemcmp, hd, isSome_map]
      exact ih fun x hx => h x (List.mem_cons_of_mem _ hx)

/-- A rule builds whenever every pattern of its clause list decodes. -/
theorem buildFilter_isSome (cfa : ConfigFiltersAccounts)
    (h : ∀ mc ∈ cfa.memcmp.getD [], (bs58Decode mc.bytes).isSome = true) :
    (buildFilter cfa).isSome = true := by
  rcases hmc : cfa.memcmp with _ | l
  · simp [buildFilter, hmc]
  · simp only [buildFilter, hmc, isSome_map]
    exact buildMemcmp_isSome l (by simpa [hmc] using h)

/-- The rule list builds whenever every pattern of every rule decodes. -/
theorem buildFilters_isSome (cl : List ConfigFiltersAccounts)
    (h : ∀ cfa ∈ cl, ∀ mc ∈ cfa.memcmp.getD [], (bs58Decode mc.bytes).isSome = true) :
    (buildFilters cl).isSome = true := by
  induction cl with
  | nil => rfl
  | cons cfa rest ih =>
    have h1 := buildFilter_isSome cfa (h cfa (List.mem_cons_self cfa rest))
    rcases hb : buildFilter cfa with _ | f
    · rw [hb] at h1
      simp at h1
    · simp only [buildFilters, hb, isSome_map]
      exact ih fun x hx => h x (List.mem_cons_of_mem _ hx)

/-- A memcmp clause list fails to build when a pattern fails to decode. -/
theorem buildMemcmp_eq_none (l : List ConfigFiltersMemcmp) (mc : ConfigFiltersMemcmp)
    (hmem : mc ∈ l) (hd : bs58Decode mc.bytes = none) :
    buildMemcmp l = none := by
  induction l with
  | nil => cases hmem
  | cons hd2 rest ih =>
    rcases List.mem_cons.mp hmem with hEq | hMem
    · subst hEq
      simp [buildMemcmp, hd]
    · rcases hdd : bs58Decode hd2.bytes with _ | bytes
      · simp [buildMemcmp, hdd]
      · simp [buildMemcmp, hdd, ih hMem]

/-- The rule list fails to build when some rule's pattern fails. -/
theorem buildFilters_eq_none (cl : List ConfigFiltersAccounts)
    (cfa : ConfigFiltersAccounts) (hmem : cfa ∈ cl)
    (hnone : buildFilter cfa = none) :
    buildFilters cl = none := by
  induction cl with
  | nil => cases hmem
  | cons hd2 rest ih =>
    rcases List.mem_cons.mp hmem with hEq | hMem
    · subst hEq
      simp [buildFilters, hnone]
    · rcases hb : buildFilter hd2 with _ | f
      · simp [buildFilters, hb]
      · simp [buildFilters, hb, ih hMem]

/-- Claim C9: at construction, a textual address that fails decoding is
silently dropped from its set (the built sets are exactly the
successful decodes) and construction succeeds whenever every memcmp
pattern decodes, whereas one undecodable memcmp pattern makes the whole
construction fatal. -/
theorem C9_construction (config : Config) :
    (∀ flt, Filter.new config = some flt →
        flt.program_ignores = config.program_ignores.filterMap pubkeyFromStr ∧
        flt.program_filters = config.program_filters.filterMap pubkeyFromStr ∧
        flt.account_filters = config.account_filters.filterMap pubkeyFromStr) ∧
    (allPatternsDecode config → (Filter.new config).isSome = true) ∧
    (∀ cfa l mc, cfa ∈ config.filters → cfa.memcmp = some l → mc ∈ l →
        bs58Decode mc.bytes = none → Filter.new config = none) := by
  refine ⟨?_, ?_, ?_⟩
  · intro flt h
    rcases hb : buildFilters config.filters with _ | fs
    · rw [Filter.new, hb] at h
      cases h
    · rw [Filter.new, hb] at h
      cases h
      exact ⟨rfl, rfl, rfl⟩
  · intro hall
    rcases hb : buildFilters config.filters with _ | fs
    · have := buildFilters_isSome config.filters hall
      rw [hb] at this
      simp at this
    · simp [Filter.new, hb]
  · intro cfa l mc hmem hl hmc hd
    have hfn : buildFilter cfa = none := by
      simp [buildFilter, hl, buildMemcmp_eq_none l mc hmc hd]
    rw [Filter.new, buildFilters_eq_none config.filters cfa hmem hfn]

/-- Witness for C9: a configuration with a malformed address and decoding
patterns builds (the malformed address silently dropped), while a
configuration with a malformed memcmp pattern does not build. -/
theorem C9_witness :
    (Filter.new c9GoodConfig).isSome = true ∧
    Filter.new c9BadConfig = none :=
  ⟨(C9_construction c9GoodConfig).2.1 (by decide),
   (C9_construction c9BadConfig).2.2 ⟨"x", none, none, some [⟨0, "0"⟩]⟩ [⟨0, "0"⟩]
     ⟨0, "0"⟩ (by decide) rfl (by decide) (by decide)⟩

/- ### Claim C10 -/

/-- Claim C10: a configured rule whose textual program id fails base-58
decoding is kept as a wildcard rule: the built rule has no program-id
constraint and its evaluation is independent of the input program
address, with the remaining predicates still evaluated; construction of
the rule still succeeds exactly when its memcmp patterns decode. -/
theorem C10_wildcard_rule (cfa : ConfigFiltersAccounts)
    (hpid : pubkeyFromStr cfa.program_id = none) :
    (∀ f, buildFilter cfa = some f →
        f.program_id = none ∧
        ∀ program program' data lamports,
          ruleEval f program data lamports = ruleEval f program' data lamports) ∧
    (buildFilter cfa).isSome =
      (match cfa.memcmp with
       | some l => (buildMemcmp l).isSome
       | none => true) := by
  constructor
  · intro f hf
    have hfpid : f.program_id = none := by
      rcases hmc : cfa.memcmp with _ | l
      · simp only [buildFilter, hmc] at hf
        cases hf
        exact hpid
      · simp only [buildFilter, hmc] at hf
        rcases hbm : buildMemcmp l with _ | v
        · rw [hbm] at hf
          cases hf
        · rw [hbm] at hf
          cases hf
          exact hpid
    refine ⟨hfpid, fun program program' data lamports => ?_⟩
    simp [ruleEval, progSkip, hfpid]
  · rcases hmc : cfa.memcmp with _ | l
    · simp [buildFilter, hmc]
    · simp [buildFilter, hmc, isSome_map]

/-- Witness for C10: the rule with unparsable program id "0" builds to a
wildcard whose evaluation ignores the program address. -/
theorem C10_witness :
    buildFilter c10Cfa = some c10Rule ∧
    c10Rule.program_id = none ∧
    ruleEval c10Rule (List.replicate 32 1) [] 0 =
      ruleEval c10Rule (List.replicate 32 2) [] 0 :=
  ⟨by decide,
   ((C10_wildcard_rule c10Cfa (by decide)).1 c10Rule (by decide)).1,
   ((C10_wildcard_rule c10Cfa (by decide)).1 c10Rule (by decide)).2
     (List.replicate 32 1) (List.replicate 32 2) [] 0⟩

end KafkaPlugin
